import Mathlib

/-!
Verification of the WG-Bridge bootstrap: the asynchronous logging pipeline
(src/core/logger.rs) and the TOML configuration loader
(src/core/configuration.rs), shallowly embedded in Lean.

Strings are modelled as lists of characters; the mpsc channel as a FIFO
queue together with a connected flag; the OnceLock singletons as Option
values with set-once semantics; fallible operations return Except values;
process-level effects (panic, exit) are explicit Outcome values.
-/

namespace WgBridge

/-- Strings, modelled as lists of characters. -/
abbrev Str := List Char

/-- One decimal digit character, as produced by zero-padded chrono fields. -/
def digCh (n : Nat) : Char := Char.ofNat (48 + n % 10)

/-- Two-digit zero-padded numeric field (chrono percent-m, -d, -H, -M, -S). -/
def pad2 (n : Nat) : Str := [digCh (n / 10), digCh n]

/-- Three-digit zero-padded numeric field (chrono .3f milliseconds). -/
def pad3 (n : Nat) : Str := [digCh (n / 100), digCh (n / 10), digCh n]

/-- Four-digit zero-padded numeric field (chrono percent-Y). -/
def pad4 (n : Nat) : Str := [digCh (n / 1000), digCh (n / 100), digCh (n / 10), digCh n]

/-- A local date-time with millisecond precision, the data rendered by
`Local::now().format("%Y-%m-%d %H:%M:%S%.3f")` in `Logger::log`. -/
structure DateTime where
  year : Nat
  month : Nat
  day : Nat
  hour : Nat
  minute : Nat
  second : Nat
  millis : Nat

/-- The chrono timestamp format string of `Logger::log`:
`"%Y-%m-%d %H:%M:%S%.3f"` (faithful for years up to 9999, where percent-Y
is exactly four zero-padded digits). -/
def fmtTimestamp (dt : DateTime) : Str :=
  pad4 dt.year ++ '-' :: pad2 dt.month ++ '-' :: pad2 dt.day ++
    ' ' :: pad2 dt.hour ++ ':' :: pad2 dt.minute ++ ':' :: pad2 dt.second ++
    '.' :: pad3 dt.millis

/-- Rust format spec `:<w` (as in `Logger::log`): left-align the string,
padding on the RIGHT with spaces up to a minimum width `w`; longer content
is emitted unchanged, never truncated. -/
def padRightTo (w : Nat) (s : Str) : Str := s ++ List.replicate (w - s.length) ' '

/-- The line built by `Logger::log`: timestamp left-aligned to minimum
width 20, a " - " separator, the level left-aligned to minimum width 8,
two spaces, then the message. -/
def formatLog (ts level message : Str) : Str :=
  padRightTo 20 ts ++ (" - ").toList ++ padRightTo 8 level ++ ("  ").toList ++ message

/-- The mpsc channel of the logger: a FIFO queue of formatted records plus
a flag telling whether the receiving endpoint is still alive. -/
structure Chan where
  queue : List Str
  connected : Bool

/-- `Sender::send`: enqueue on a connected channel, or fail with a
`SendError` when the receiver has been dropped (the message is lost). -/
def sendMsg (c : Chan) (m : Str) : Except Unit Chan :=
  if c.connected then .ok { c with queue := c.queue ++ [m] } else .error ()

/-- `Logger::log`: format the record and send it; the result of `send` is
discarded (`let _ = ...`), so a failed send leaves the caller unaffected
and the channel state unchanged. Total: it can never panic. -/
def logM (c : Chan) (ts level message : Str) : Chan :=
  match sendMsg c (formatLog ts level message) with
  | .ok c2 => c2
  | .error _ => c

/-- The four log levels of the public logging methods. -/
inductive Lvl where
  | debug
  | info
  | warn
  | error
deriving DecidableEq

/-- The level string each public method passes to `Logger::log`. -/
def lvlStr : Lvl → Str
  | .debug => ("DEBUG").toList
  | .info => ("INFO").toList
  | .warn => ("WARN").toList
  | .error => ("ERROR").toList

/-- `Logger::debug` (compiled only under debug_assertions). -/
def debugM (c : Chan) (ts msg : Str) : Chan := logM c ts (("DEBUG").toList) msg

/-- `Logger::info`. -/
def infoM (c : Chan) (ts msg : Str) : Chan := logM c ts (("INFO").toList) msg

/-- `Logger::warn`. -/
def warnM (c : Chan) (ts msg : Str) : Chan := logM c ts (("WARN").toList) msg

/-- `Logger::error`. -/
def errM (c : Chan) (ts msg : Str) : Chan := logM c ts (("ERROR").toList) msg

/-- A public logging call dispatched by level. -/
def callM (l : Lvl) (c : Chan) (ts msg : Str) : Chan := logM c ts (lvlStr l) msg

/-- One iteration of the consumer loop: `writeln!(file, "{}", message)`
appends the record followed by a newline to the file. -/
def writeRecord (file : Str) (m : Str) : Str := file ++ m ++ ['\n']

/-- The consumer loop `for message in rx`: drain the queue in FIFO order,
appending each record and a newline to the file. -/
def drainAll (file : Str) (queue : List Str) : Str := queue.foldl writeRecord file

/-- The file contents produced by draining a queue into an empty file. -/
def joinNl (q : List Str) : Str := q.foldr (fun m acc => m ++ '\n' :: acc) []

/-- The lines of a file: maximal newline-free segments; a final segment not
terminated by a newline also counts as a line, and a file ending in a
newline has no empty phantom line after it. -/
def linesOf : Str → List Str
  | [] => []
  | c :: cs =>
    if c = '\n' then [] :: linesOf cs
    else
      match linesOf cs with
      | [] => [[c]]
      | l :: ls => (c :: l) :: ls

/-- A producer call: the date-time sampled at call time, the level of the
method called, and the message argument. -/
abbrev Call := DateTime × Lvl × Str

/-- The formatted record a call enqueues. -/
def fmtLine (k : Call) : Str := formatLog (fmtTimestamp k.1) (lvlStr k.2.1) k.2.2

/-- A single producer thread issuing a sequence of calls in order. -/
def runProducer (c : Chan) (calls : List Call) : Chan :=
  calls.foldl (fun c k => callM k.2.1 c (fmtTimestamp k.1) k.2.2) c

/-- End-to-end: the log file obtained when a single producer issues `calls`
on a fresh connected channel and the consumer then drains the channel. -/
def logFileOf (calls : List Call) : Str := drainAll [] (runProducer ⟨[], true⟩ calls).queue

/-- The fate of a call that may touch process state: normal return, a
panic carrying its message, or process::exit with a status code. -/
inductive Outcome where
  | normal
  | panicked (msg : Str)
  | exited (code : Nat)
deriving DecidableEq

/-- `Logger::init`: build a fresh logger value and install it with
`LOGGER.set(logger).expect("Logger already initialized")`. OnceLock::set
keeps the previously installed value and fails when already set, and
`expect` turns that failure into a panic. -/
def loggerInit {α : Type} (st : Option α) (l2 : α) : Option α × Outcome :=
  match st with
  | none => (some l2, .normal)
  | some w => (some w, .panicked (("Logger already initialized").toList))

/-- `OnceLock::get().expect(msg)`: return the installed value or panic
with `msg` when nothing was installed. -/
def expectGet {α : Type} (st : Option α) (msg : Str) : Except Str α :=
  match st with
  | some v => .ok v
  | none => .error msg

/-- `Logger::get` on the LOGGER singleton state. -/
def loggerGet (st : Option Chan) : Except Str Chan :=
  expectGet st (("Logger not initialized").toList)

/-- The `AppConf` structure: fields version, log_path, user_conf. -/
structure AppConf where
  version : Str
  log_path : Str
  user_conf : Str
deriving DecidableEq

/-- `AppConf::get` on the CONFIG singleton state. -/
def configGet (st : Option AppConf) : Except Str AppConf :=
  expectGet st (("Configuration not initialized").toList)

/-- The three failure modes of `load_app_conf`: the io error of
`fs::read_to_string`, the toml deserialization error, and
`env::var("HOME")` failing because the variable is absent. -/
inductive LoadErr where
  | readFail (e : Str)
  | parseFail (e : Str)
  | envMissing
deriving DecidableEq

/-- The Display rendering of each propagated error (`VarError::NotPresent`
displays as "environment variable not found"). -/
def errDisplay : LoadErr → Str
  | .readFail e => e
  | .parseFail e => e
  | .envMissing => ("environment variable not found").toList

/-- The fixed configuration path of `load_app_conf`. -/
def appTomlPath : Str := ("/etc/wg-bridge/app.toml").toList

/-- The message logged when reading the configuration file fails. -/
def readFailMsg (e : Str) : Str :=
  ("Failed to read config file ").toList ++ appTomlPath ++ (": ").toList ++ e

/-- The message logged when parsing the configuration file fails. -/
def parseFailMsg (e : Str) : Str :=
  ("Failed to parse the config file ").toList ++ appTomlPath ++ (": ").toList ++ e

/-- The message `AppConf::init` logs when `load_app_conf` fails. -/
def loadFailMsg (err : LoadErr) : Str :=
  ("Failed to load configuration: ").toList ++ errDisplay err

/-- The panic message of the `expect` guarding `CONFIG.set`. -/
def setFailMsg : Str := ("Failed to set configuration").toList

/-- `config.user_conf.contains("$HOME")`: does the placeholder occur as a
substring. -/
def containsHome : Str → Bool
  | '$' :: 'H' :: 'O' :: 'M' :: 'E' :: _ => true
  | _ :: rest => containsHome rest
  | [] => false

/-- `s.replace("$HOME", home)`: replace every non-overlapping occurrence of
the placeholder, scanning left to right; the replacement text is not
rescanned. -/
def replaceHome (home : Str) : Str → Str
  | '$' :: 'H' :: 'O' :: 'M' :: 'E' :: rest => home ++ replaceHome home rest
  | c :: rest => c :: replaceHome home rest
  | [] => []

/-- Every dollar sign in the string starts a full "$HOME" occurrence. -/
def dollarsOnlyHome : Str → Bool
  | '$' :: 'H' :: 'O' :: 'M' :: 'E' :: rest => dollarsOnlyHome rest
  | '$' :: _ => false
  | _ :: rest => dollarsOnlyHome rest
  | [] => true

/-- Is `pat` a prefix of the second string. -/
def hasPrefixC : Str → Str → Bool
  | [], _ => true
  | _ :: _, [] => false
  | p :: ps, c :: cs => (p == c) && hasPrefixC ps cs

/-- Does `pat` occur as a contiguous substring of the second string. -/
def containsSub (pat : Str) : Str → Bool
  | [] => hasPrefixC pat []
  | c :: rest => hasPrefixC pat (c :: rest) || containsSub pat rest

/-- `AppConf::load_app_conf`. Its interactions with the outside world are
passed in: `readRes` is the result of `fs::read_to_string` on the fixed
path, `parseFn` is the toml deserializer, `envHome` the value of the HOME
environment variable. Returns the result together with the list of
messages logged through the logger, in order. -/
def loadAppConf (readRes : Except Str Str) (parseFn : Str → Except Str AppConf)
    (envHome : Option Str) : Except LoadErr AppConf × List Str :=
  match readRes with
  | .error e => (.error (.readFail e), [readFailMsg e])
  | .ok content =>
    match parseFn content with
    | .error e => (.error (.parseFail e), [parseFailMsg e])
    | .ok conf =>
      if containsHome conf.user_conf then
        match envHome with
        | none => (.error .envMissing, [])
        | some home => (.ok { conf with user_conf := replaceHome home conf.user_conf }, [])
      else (.ok conf, [])

/-- `AppConf::init` acting on the CONFIG singleton state `st`: on load
success install the configuration (panicking, value kept, if already set);
on load failure log the error and exit with status 1. The success-path
`log.debug` diagnostic exists only in debug builds and is not an error
message, so it is not tracked in the returned log list. -/
def appInit (readRes : Except Str Str) (parseFn : Str → Except Str AppConf)
    (envHome : Option Str) (st : Option AppConf) : Option AppConf × List Str × Outcome :=
  match loadAppConf readRes parseFn envHome with
  | (.ok conf, logs) =>
    match st with
    | none => (some conf, logs, .normal)
    | some w => (some w, logs, .panicked setFailMsg)
  | (.error err, logs) => (st, logs ++ [loadFailMsg err], .exited 1)

/-- Modelled from the claim's words only (for comparison with the source's
`padRightTo`): a "left-padded" field pads on the LEFT with spaces. -/
def specPadLeft (w : Nat) (s : Str) : Str := List.replicate (w - s.length) ' ' ++ s

/-- Modelled from the claim's words only: the line shape claim C5
describes, with left-padded 20- and 8-character fields. -/
def specC5Line (ts level message : Str) : Str :=
  specPadLeft 20 ts ++ (" - ").toList ++ specPadLeft 8 level ++ ("  ").toList ++ message

/-!
Concrete sample values for witnesses and counterexamples.
-/

/-- A sample date-time. -/
def dtW : DateTime := ⟨2025, 10, 12, 9, 30, 0, 123⟩

/-- A sample call sequence of one info and one error call. -/
def callsW : List Call :=
  [(dtW, Lvl.info, ("starting up").toList), (⟨2025, 10, 12, 9, 30, 1, 7⟩, Lvl.error, ("boom").toList)]

/-- A sample parsed document whose user_conf holds the placeholder. -/
def docW : AppConf := ⟨("1.0").toList, ("/var/log/x.log").toList, ("$HOME/cfg.toml").toList⟩

/-- A parser stub returning the sample document (standing for the toml
deserializer on the corresponding concrete document text). -/
def parseW : Str → Except Str AppConf := fun _ => .ok docW

/-- A sample parsed document without the placeholder. -/
def docPlain : AppConf := ⟨("1.0").toList, ("/var/log/x.log").toList, ("/home/u/cfg.toml").toList⟩

/-- A parser stub returning the placeholder-free sample document. -/
def parsePlain : Str → Except Str AppConf := fun _ => .ok docPlain

/-- A sample home directory value. -/
def homeW : Str := ("/home/bob").toList

/-- A parser stub that always fails (standing for the toml deserializer on
malformed document text), carrying a sample toml error rendering. -/
def parseBad : Str → Except Str AppConf :=
  fun _ => .error (("expected an equals, found eof at line 1 column 8").toList)

/-!
Reduction equations for the placeholder scanners: the guarded non-pattern
steps, proved once from the compiled match.
-/

theorem containsHome_pat (tail : Str) :
    containsHome ('$' :: 'H' :: 'O' :: 'M' :: 'E' :: tail) = true := rfl

theorem replaceHome_pat (home tail : Str) :
    replaceHome home ('$' :: 'H' :: 'O' :: 'M' :: 'E' :: tail) = home ++ replaceHome home tail := rfl

theorem dollarsOnlyHome_pat (tail : Str) :
    dollarsOnlyHome ('$' :: 'H' :: 'O' :: 'M' :: 'E' :: tail) = dollarsOnlyHome tail := rfl

theorem containsHome_cons (c : Char) (rest : Str)
    (h : ∀ tail : Str, c :: rest ≠ '$' :: 'H' :: 'O' :: 'M' :: 'E' :: tail) :
    containsHome (c :: rest) = containsHome rest := by
  rw [containsHome.eq_def]
  split
  · rename_i tail heq
    exact absurd heq (h tail)
  · rename_i x hne heq
    rw [(List.cons.inj heq).2]
  · rename_i x heq
    exact absurd heq (by simp)

theorem replaceHome_cons (home : Str) (c : Char) (rest : Str)
    (h : ∀ tail : Str, c :: rest ≠ '$' :: 'H' :: 'O' :: 'M' :: 'E' :: tail) :
    replaceHome home (c :: rest) = c :: replaceHome home rest := by
  rw [replaceHome.eq_def]
  split
  · rename_i tail heq
    exact absurd heq (h tail)
  · rename_i x hne heq
    obtain ⟨e1, e2⟩ := List.cons.inj heq
    rw [e1, e2]
  · rename_i x heq
    exact absurd heq (by simp)

theorem dollarsOnlyHome_cons (c : Char) (rest : Str) (hc : c ≠ '$') :
    dollarsOnlyHome (c :: rest) = dollarsOnlyHome rest := by
  rw [dollarsOnlyHome.eq_def]
  split
  · rename_i tail heq
    exact absurd (List.cons.inj heq).1 hc
  · rename_i tail hne heq
    exact absurd (List.cons.inj heq).1 hc
  · rename_i x hne1 hne2 heq
    rw [(List.cons.inj heq).2]
  · rename_i heq
    exact absurd heq (by simp)

theorem dollarsOnlyHome_dollar (tail : Str)
    (h : ∀ rest : Str, tail ≠ 'H' :: 'O' :: 'M' :: 'E' :: rest) :
    dollarsOnlyHome ('$' :: tail) = false := by
  rw [dollarsOnlyHome.eq_def]
  split
  · rename_i rest heq
    exact absurd (List.cons.inj heq).2 (h rest)
  · rfl
  · rename_i x hne1 hne2 heq
    exact absurd (List.cons.inj heq).1.symm (by simpa using hne2)
  · rename_i heq
    exact absurd heq (by simp)

/-- If the placeholder occurs as a substring then a dollar sign occurs. -/
theorem contains_imp_dollar : ∀ s : Str, containsHome s = true → '$' ∈ s := by
  intro s
  induction s using containsHome.induct with
  | case1 rest => intro _; simp
  | case2 c rest h ih =>
    intro hc
    rw [containsHome_cons c rest
      (fun tail heq => h tail (List.cons.inj heq).1 (List.cons.inj heq).2)] at hc
    exact List.mem_cons.mpr (Or.inr (ih hc))
  | case3 => simp [containsHome]

/-- Key substitution lemma: when every dollar sign of `s` starts a full
placeholder occurrence and the substituted home value has no dollar sign,
the replaced string has no dollar sign at all. -/
theorem replace_no_dollar (home : Str) (hh : '$' ∉ home) :
    ∀ s : Str, dollarsOnlyHome s = true → '$' ∉ replaceHome home s := by
  intro s
  induction s using dollarsOnlyHome.induct with
  | case1 rest ih =>
    intro hd
    rw [dollarsOnlyHome_pat] at hd
    rw [replaceHome_pat]
    intro hmem
    rcases List.mem_append.mp hmem with h | h
    · exact hh h
    · exact ih hd h
  | case2 tail h =>
    intro hd
    rw [dollarsOnlyHome_dollar tail (fun rest heq => h rest heq)] at hd
    cases hd
  | case3 c rest h1 h2 ih =>
    intro hd
    have hcne : c ≠ '$' := fun he => h2 he
    rw [dollarsOnlyHome_cons c rest hcne] at hd
    rw [replaceHome_cons home c rest (fun tail heq => h1 tail (List.cons.inj heq).1 (List.cons.inj heq).2)]
    intro hmem
    rcases List.mem_cons.mp hmem with h | h
    · exact hcne h.symm
    · exact ih hd h
  | case4 =>
    intro _
    simp [replaceHome]

/-!
Character-level facts about the timestamp and the formatted record.
-/

theorem nl_ne_ofNat_digit : ∀ k : Nat, k < 10 → ('\n' : Char) ≠ Char.ofNat (48 + k) := by decide

theorem nl_ne_digCh (n : Nat) : ('\n' : Char) ≠ digCh n :=
  nl_ne_ofNat_digit (n % 10) (Nat.mod_lt _ (by norm_num))

theorem nl_notin_pad2 (n : Nat) : '\n' ∉ pad2 n := by
  simp [pad2, nl_ne_digCh]

theorem nl_notin_pad3 (n : Nat) : '\n' ∉ pad3 n := by
  simp [pad3, nl_ne_digCh]

theorem nl_notin_pad4 (n : Nat) : '\n' ∉ pad4 n := by
  simp [pad4, nl_ne_digCh]

/-- A rendered timestamp never contains a newline. -/
theorem nl_notin_ts (dt : DateTime) : '\n' ∉ fmtTimestamp dt := by
  simp [fmtTimestamp, pad2, pad3, pad4, nl_ne_digCh]

/-- A level string never contains a newline. -/
theorem nl_notin_lvl (l : Lvl) : '\n' ∉ lvlStr l := by
  cases l <;> decide

theorem nl_notin_padRightTo (w : Nat) (s : Str) (h : '\n' ∉ s) : '\n' ∉ padRightTo w s := by
  intro hmem
  rcases List.mem_append.mp hmem with hx | hx
  · exact h hx
  · exact absurd (List.eq_of_mem_replicate hx) (by decide)

/-- A formatted record contains a newline only if its message does. -/
theorem nl_notin_formatLog (ts level message : Str) (h1 : '\n' ∉ ts) (h2 : '\n' ∉ level)
    (h3 : '\n' ∉ message) : '\n' ∉ formatLog ts level message := by
  intro h
  simp only [formatLog, List.mem_append] at h
  rcases h with ((((h | h) | h) | h) | h)
  · exact nl_notin_padRightTo 20 ts h1 h
  · exact absurd h (by decide)
  · exact nl_notin_padRightTo 8 level h2 h
  · exact absurd h (by decide)
  · exact h3 h

/-- No padding is applied to content already at the minimum width. -/
theorem padRightTo_of_le (w : Nat) (s : Str) (h : w ≤ s.length) : padRightTo w s = s := by
  simp [padRightTo, Nat.sub_eq_zero_of_le h]

/-- The rendered timestamp is exactly 23 characters long. -/
theorem fmtTimestamp_len (dt : DateTime) : (fmtTimestamp dt).length = 23 := by
  simp [fmtTimestamp, pad2, pad3, pad4]

/-!
The producer side: a connected channel accumulates one formatted record per
call, in call order.
-/

theorem logM_connected (q : List Str) (ts level message : Str) :
    logM ⟨q, true⟩ ts level message = ⟨q ++ [formatLog ts level message], true⟩ := by
  simp [logM, sendMsg]

theorem runProducer_queue (calls : List Call) : ∀ q : List Str,
    runProducer ⟨q, true⟩ calls = ⟨q ++ calls.map fmtLine, true⟩ := by
  induction calls with
  | nil => intro q; simp [runProducer]
  | cons k ks ih =>
    intro q
    show runProducer _ (k :: ks) = _
    simp only [runProducer, List.foldl_cons] at ih ⊢
    rw [show callM k.2.1 ⟨q, true⟩ (fmtTimestamp k.1) k.2.2 = ⟨q ++ [fmtLine k], true⟩ from by
      simp [callM, logM, sendMsg, fmtLine]]
    rw [ih (q ++ [fmtLine k])]
    simp

/-!
The consumer side: draining writes the queued records, newline-terminated,
in FIFO order, and splitting the file back into lines recovers the records
when none of them contains an embedded newline.
-/

theorem drainAll_eq (queue : List Str) : ∀ file : Str,
    drainAll file queue = file ++ joinNl queue := by
  induction queue with
  | nil => intro file; simp [drainAll, joinNl]
  | cons m q ih =>
    intro file
    show drainAll _ (m :: q) = _
    simp only [drainAll, List.foldl_cons] at ih ⊢
    rw [ih (writeRecord file m)]
    simp [writeRecord, joinNl]

theorem linesOf_append (m rest : Str) (hm : '\n' ∉ m) :
    linesOf (m ++ '\n' :: rest) = m :: linesOf rest := by
  induction m with
  | nil => simp [linesOf]
  | cons c m ih =>
    have hc : ¬ c = '\n' := fun h => hm (by simp [h])
    have hm2 : '\n' ∉ m := fun h => hm (List.mem_cons.mpr (Or.inr h))
    rw [List.cons_append, linesOf, if_neg hc, ih hm2]

theorem linesOf_joinNl (q : List Str) (h : ∀ m ∈ q, '\n' ∉ m) :
    linesOf (joinNl q) = q := by
  induction q with
  | nil => simp [joinNl, linesOf]
  | cons m q ih =>
    have h1 : '\n' ∉ m := h m (List.mem_cons_self m q)
    have h2 : ∀ x ∈ q, '\n' ∉ x := fun x hx => h x (List.mem_cons.mpr (Or.inr hx))
    show linesOf (joinNl (m :: q)) = _
    simp only [joinNl, List.foldr_cons] at ih ⊢
    rw [linesOf_append m _ h1, ih h2]

/-!
Substring facts used for the logged error messages.
-/

theorem hasPrefixC_self_append : ∀ p y : Str, hasPrefixC p (p ++ y) = true := by
  intro p
  induction p with
  | nil => intro y; simp [hasPrefixC]
  | cons c p ih => intro y; simp [hasPrefixC, ih]

theorem containsSub_sandwich : ∀ x p y : Str, containsSub p (x ++ (p ++ y)) = true := by
  intro x
  induction x with
  | nil =>
    intro p y
    simp only [List.nil_append]
    cases h : p ++ y with
    | nil =>
      have hp : p = [] := (List.append_eq_nil.mp h).1
      simp [containsSub, hp, hasPrefixC]
    | cons c rest =>
      rw [containsSub, ← h, hasPrefixC_self_append]
      simp
  | cons c x ih =>
    intro p y
    rw [List.cons_append, containsSub, ih p y]
    simp

/-!
Claim C1.
-/

/-- Claim C1, counterexample: a single `info` call whose message contains
an embedded newline makes the consumer write TWO lines to the log file,
not one — `writeln!` copies the message verbatim and appends one newline,
so the claimed "exactly N lines for N calls" fails as stated. -/
theorem c1_newline_breaks_line_count :
    (linesOf (logFileOf [(dtW, Lvl.info, ('a' :: '\n' :: 'b' :: []))])).length = 2 ∧
    (linesOf (logFileOf [(dtW, Lvl.info, ('a' :: '\n' :: 'b' :: []))])).length ≠ 1 := by
  constructor
  · decide
  · decide

/-- Claim C1 (amended): for every sequence of N producer calls whose
messages contain no newline character, the consumer writes exactly N lines
to the log file, the i-th line being the formatted record of the i-th
call — the channel is drained in send order, one `writeln!` per record. -/
theorem c1_lines_in_call_order (calls : List Call) (h : ∀ k ∈ calls, '\n' ∉ k.2.2) :
    linesOf (logFileOf calls) = calls.map fmtLine ∧
    (linesOf (logFileOf calls)).length = calls.length := by
  have hq : (runProducer ⟨[], true⟩ calls).queue = calls.map fmtLine := by
    rw [runProducer_queue calls []]
    simp
  have hfile : logFileOf calls = joinNl (calls.map fmtLine) := by
    rw [logFileOf, hq, drainAll_eq]
    simp
  have hnl : ∀ m ∈ calls.map fmtLine, '\n' ∉ m := by
    intro m hm
    obtain ⟨k, hk, rfl⟩ := List.mem_map.mp hm
    exact nl_notin_formatLog _ _ _ (nl_notin_ts k.1) (nl_notin_lvl k.2.1) (h k hk)
  constructor
  · rw [hfile, linesOf_joinNl _ hnl]
  · rw [hfile, linesOf_joinNl _ hnl, List.length_map]

/-- Claim C1, witness: the amended theorem evaluated on a concrete
two-call sequence. -/
theorem c1_lines_in_call_order_witness :
    (∀ k ∈ callsW, '\n' ∉ k.2.2) ∧ (linesOf (logFileOf callsW)).length = 2 :=
  ⟨by decide, (c1_lines_in_call_order callsW (by decide)).2⟩

/-!
Claim C2.
-/

/-- Claim C2 (confirmed): for every document whose `user_conf` contains
the placeholder and with HOME set, `load_app_conf` succeeds and returns
the document with every `$HOME` occurrence in `user_conf` replaced by the
HOME value, the other fields untouched. -/
theorem c2_home_substitution (readC : Str) (parseFn : Str → Except Str AppConf)
    (doc : AppConf) (home : Str) (hp : parseFn readC = .ok doc)
    (hc : containsHome doc.user_conf = true) :
    (loadAppConf (.ok readC) parseFn (some home)).1 =
      .ok { doc with user_conf := replaceHome home doc.user_conf } := by
  simp [loadAppConf, hp, hc]

/-- Claim C2, witness: the scenario of the spec — document
version "1.0", log_path "/var/log/x.log", user_conf "$HOME/cfg.toml" with
HOME=/home/bob loads to user_conf "/home/bob/cfg.toml". -/
theorem c2_home_substitution_witness :
    parseW [] = .ok docW ∧ containsHome docW.user_conf = true ∧
    (loadAppConf (.ok []) parseW (some homeW)).1 =
      .ok ⟨("1.0").toList, ("/var/log/x.log").toList, ("/home/bob/cfg.toml").toList⟩ := by
  refine ⟨rfl, by decide, ?_⟩
  rw [c2_home_substitution [] parseW docW homeW rfl (by decide)]
  rfl

/-!
Claim C3.
-/

/-- Claim C3, counterexample: `load_app_conf` completes successfully and
the returned `user_conf` still contains "$HOME" — `str::replace` does not
rescan the substituted text, so a HOME value itself containing the
placeholder (here "a$HOMEb") reintroduces it. -/
theorem c3_placeholder_reintroduced :
    (loadAppConf (.ok []) parseW (some (("a$HOMEb").toList))).1 =
      .ok ⟨("1.0").toList, ("/var/log/x.log").toList, ("a$HOMEb/cfg.toml").toList⟩ ∧
    containsHome (("a$HOMEb/cfg.toml").toList) = true := by
  constructor
  · rfl
  · decide

/-- Claim C3 (amended): after a successful `load_app_conf`, the returned
`user_conf` contains no "$HOME", provided the HOME value contains no
dollar sign and every dollar sign of the document's `user_conf` starts a
full "$HOME" occurrence (without such provisos the replaced text can
reassemble the placeholder). -/
theorem c3_no_placeholder_after_load (readC : Str) (parseFn : Str → Except Str AppConf)
    (doc : AppConf) (envHome : Option Str) (hp : parseFn readC = .ok doc)
    (hd : dollarsOnlyHome doc.user_conf = true)
    (hh : ∀ h ∈ envHome, '$' ∉ h) :
    ∀ conf logs, loadAppConf (.ok readC) parseFn envHome = (.ok conf, logs) →
      containsHome conf.user_conf = false := by
  intro conf logs hload
  by_cases hc : containsHome doc.user_conf = true
  · cases envHome with
    | none => simp [loadAppConf, hp, hc] at hload
    | some home =>
      simp only [loadAppConf, hp, hc, if_true] at hload
      have hfst := congrArg Prod.fst hload
      simp only at hfst
      have hconf := Except.ok.inj hfst
      rw [← hconf]
      have hnd : '$' ∉ replaceHome home doc.user_conf :=
        replace_no_dollar home (hh home rfl) doc.user_conf hd
      cases hb : containsHome (replaceHome home doc.user_conf) with
      | false => rfl
      | true => exact absurd (contains_imp_dollar _ hb) hnd
  · have hcf : containsHome doc.user_conf = false := by
      simpa using hc
    simp only [loadAppConf, hp, hcf] at hload
    have hfst := congrArg Prod.fst hload
    simp only at hfst
    rw [← Except.ok.inj hfst]
    exact hcf

/-- Claim C3, witness: the amended theorem evaluated on the sample
document and HOME=/home/bob. -/
theorem c3_no_placeholder_after_load_witness :
    dollarsOnlyHome docW.user_conf = true ∧
    containsHome (("/home/bob/cfg.toml").toList) = false :=
  ⟨by decide,
    c3_no_placeholder_after_load [] parseW docW (some homeW) rfl (by decide)
      (by intro h hm; rw [← Option.some.inj hm]; decide)
      ⟨("1.0").toList, ("/var/log/x.log").toList, ("/home/bob/cfg.toml").toList⟩ [] rfl⟩

/-!
Claim C4.
-/

/-- Claim C4 (confirmed): for a document without the placeholder,
`load_app_conf` returns the parsed fields verbatim, and the result does
not depend on the environment at all. -/
theorem c4_verbatim_without_placeholder (readC : Str) (parseFn : Str → Except Str AppConf)
    (doc : AppConf) (envHome : Option Str) (hp : parseFn readC = .ok doc)
    (hc : containsHome doc.user_conf = false) :
    (loadAppConf (.ok readC) parseFn envHome).1 = .ok doc ∧
    ∀ envB, loadAppConf (.ok readC) parseFn envHome = loadAppConf (.ok readC) parseFn envB := by
  constructor
  · simp [loadAppConf, hp, hc]
  · intro envB
    simp [loadAppConf, hp, hc]

/-- Claim C4, witness: a placeholder-free document loads verbatim under a
set HOME variable. -/
theorem c4_verbatim_without_placeholder_witness :
    parsePlain [] = .ok docPlain ∧ containsHome docPlain.user_conf = false ∧
    (loadAppConf (.ok []) parsePlain (some homeW)).1 = .ok docPlain :=
  ⟨rfl, by decide,
    (c4_verbatim_without_placeholder [] parsePlain docPlain (some homeW) rfl (by decide)).1⟩

/-!
Claim C5.
-/

/-- Claim C5, counterexample: the enqueued line is NOT the claimed
left-padded layout — `Logger::log` uses the left-ALIGNING spec (padding on
the right), and the 23-character millisecond timestamp exceeds the claimed
20-character field. At a concrete timestamp, level INFO and message "x"
the two layouts differ. -/
theorem c5_not_left_padded :
    formatLog (fmtTimestamp dtW) (("INFO").toList) (("x").toList) ≠
      specC5Line (fmtTimestamp dtW) (("INFO").toList) (("x").toList) := by
  decide

/-- Claim C5 (amended): each logging call enqueues the line made of the
millisecond timestamp (23 characters, so the 20-character minimum width
applies no padding), " - ", the level left-aligned (right-padded with
spaces) to a minimum width of 8, two spaces, and the message. -/
theorem c5_line_format (c : Chan) (dt : DateTime) (l : Lvl) (msg : Str)
    (hc : c.connected = true) (_hy : dt.year ≤ 9999) :
    (callM l c (fmtTimestamp dt) msg).queue =
      c.queue ++ [fmtTimestamp dt ++ (" - ").toList ++ padRightTo 8 (lvlStr l) ++
        ("  ").toList ++ msg] ∧
    (fmtTimestamp dt).length = 23 := by
  constructor
  · obtain ⟨q, conn⟩ := c
    simp only at hc
    subst hc
    rw [show callM l ⟨q, true⟩ (fmtTimestamp dt) msg =
        ⟨q ++ [formatLog (fmtTimestamp dt) (lvlStr l) msg], true⟩ from by
      simp [callM, logM, sendMsg]]
    simp only
    rw [formatLog, padRightTo_of_le 20 _ (by rw [fmtTimestamp_len]; norm_num)]
  · exact fmtTimestamp_len dt

/-- Claim C5, witness: the amended theorem evaluated for a warn call on a
fresh connected channel. -/
theorem c5_line_format_witness :
    (Chan.mk [] true).connected = true ∧ dtW.year ≤ 9999 ∧
    (callM Lvl.warn ⟨[], true⟩ (fmtTimestamp dtW) (("m").toList)).queue =
      [] ++ [fmtTimestamp dtW ++ (" - ").toList ++ padRightTo 8 (lvlStr Lvl.warn) ++
        ("  ").toList ++ ("m").toList] :=
  ⟨rfl, by norm_num [dtW], (c5_line_format ⟨[], true⟩ dtW Lvl.warn (("m").toList) rfl
    (by norm_num [dtW])).1⟩

/-!
Claim C6.
-/

/-- Claim C6 (confirmed): the HOME variable is consulted only when
`user_conf` contains the placeholder (without it the result is identical
for every environment), and when the placeholder is present but HOME is
unset, `load_app_conf` fails with the error standing for the propagated
missing-environment-variable failure. -/
theorem c6_env_read_only_when_needed (readC : Str) (parseFn : Str → Except Str AppConf)
    (doc : AppConf) (envHome : Option Str) (hp : parseFn readC = .ok doc) :
    (containsHome doc.user_conf = false →
      ∀ envB, loadAppConf (.ok readC) parseFn envHome = loadAppConf (.ok readC) parseFn envB) ∧
    (containsHome doc.user_conf = true → envHome = none →
      (loadAppConf (.ok readC) parseFn envHome).1 = .error .envMissing ∧
      errDisplay .envMissing = ("environment variable not found").toList) := by
  constructor
  · intro hc envB
    simp [loadAppConf, hp, hc]
  · intro hc he
    subst he
    exact ⟨by simp [loadAppConf, hp, hc], rfl⟩

/-- Claim C6, witness: the sample placeholder document with HOME unset
fails with the missing-variable error. -/
theorem c6_env_read_only_when_needed_witness :
    containsHome docW.user_conf = true ∧
    (loadAppConf (.ok []) parseW none).1 = .error .envMissing :=
  ⟨by decide,
    ((c6_env_read_only_when_needed [] parseW docW none rfl).2 (by decide) rfl).1⟩

/-!
Claim C7.
-/

/-- Claim C7, counterexample: when `load_app_conf` fails because HOME is
unset (a valid file whose `user_conf` holds the placeholder), `init` exits
with status 1 and the singleton stays unset, but the only message logged
is "Failed to load configuration: environment variable not found" — no
logged message mentions the path /etc/wg-bridge/app.toml, so the claim's
"logs an error message that mentions the failing path" fails as stated. -/
theorem c7_env_failure_omits_path :
    appInit (.ok []) parseW none none = (none, [loadFailMsg .envMissing], .exited 1) ∧
    containsSub appTomlPath (loadFailMsg .envMissing) = false := by
  constructor
  · rfl
  · decide

/-- Claim C7 (amended): whenever `load_app_conf` fails, `AppConf::init`
logs the failure and terminates with exit status 1 and the configuration
singleton is never set; when the failure is the configuration file being
unreadable (for example missing), or the file failing to parse, the
logged messages include one mentioning both the failing path and the
underlying cause. -/
theorem c7_init_failure_exits (readRes : Except Str Str)
    (parseFn : Str → Except Str AppConf) (envHome : Option Str) :
    (∀ err logs0, loadAppConf readRes parseFn envHome = (.error err, logs0) →
      appInit readRes parseFn envHome none = (none, logs0 ++ [loadFailMsg err], .exited 1)) ∧
    (∀ e, readRes = .error e →
      loadAppConf readRes parseFn envHome = (.error (.readFail e), [readFailMsg e]) ∧
      containsSub appTomlPath (readFailMsg e) = true ∧
      containsSub e (readFailMsg e) = true) ∧
    (∀ content e, readRes = .ok content → parseFn content = .error e →
      loadAppConf readRes parseFn envHome = (.error (.parseFail e), [parseFailMsg e]) ∧
      containsSub appTomlPath (parseFailMsg e) = true ∧
      containsSub e (parseFailMsg e) = true) := by
  refine ⟨?_, ?_, ?_⟩
  · intro err logs0 hload
    simp [appInit, hload]
  · intro e he
    subst he
    refine ⟨rfl, ?_, ?_⟩
    · have h := containsSub_sandwich (("Failed to read config file ").toList) appTomlPath
        ((": ").toList ++ e)
      simpa [List.append_assoc, readFailMsg] using h
    · have h := containsSub_sandwich
        ((("Failed to read config file ").toList ++ appTomlPath) ++ (": ").toList) e []
      simpa [List.append_assoc, readFailMsg] using h
  · intro content e he hp
    subst he
    refine ⟨by simp [loadAppConf, hp], ?_, ?_⟩
    · have h := containsSub_sandwich (("Failed to parse the config file ").toList) appTomlPath
        ((": ").toList ++ e)
      simpa [List.append_assoc, parseFailMsg] using h
    · have h := containsSub_sandwich
        ((("Failed to parse the config file ").toList ++ appTomlPath) ++ (": ").toList) e []
      simpa [List.append_assoc, parseFailMsg] using h

/-- Claim C7, witness: a missing configuration file (the io error text of
a missing file) makes `init` log the path and the cause, leave the
singleton unset and exit with status 1; a malformed file likewise gets a
logged message mentioning the path. -/
theorem c7_init_failure_exits_witness :
    appInit (.error (("No such file or directory (os error 2)").toList)) parseW none none =
      (none, [readFailMsg (("No such file or directory (os error 2)").toList)] ++
        [loadFailMsg (.readFail (("No such file or directory (os error 2)").toList))],
        .exited 1) ∧
    containsSub appTomlPath
      (readFailMsg (("No such file or directory (os error 2)").toList)) = true ∧
    containsSub appTomlPath
      (parseFailMsg (("expected an equals, found eof at line 1 column 8").toList)) = true :=
  ⟨(c7_init_failure_exits (.error (("No such file or directory (os error 2)").toList))
      parseW none).1 (.readFail (("No such file or directory (os error 2)").toList))
      [readFailMsg (("No such file or directory (os error 2)").toList)] rfl,
    ((c7_init_failure_exits (.error (("No such file or directory (os error 2)").toList))
      parseW none).2.1 (("No such file or directory (os error 2)").toList) rfl).2.1,
    ((c7_init_failure_exits (.ok []) parseBad none).2.2 []
      (("expected an equals, found eof at line 1 column 8").toList) rfl rfl).2.1⟩

/-!
Claim C8.
-/

/-- Claim C8 (confirmed): `Logger::get` before `Logger::init` and
`AppConf::get` before `AppConf::init` both panic deterministically with
their fixed messages and never produce a value. -/
theorem c8_get_before_init_panics :
    loggerGet none = .error (("Logger not initialized").toList) ∧
    configGet none = .error (("Configuration not initialized").toList) ∧
    (∀ c : Chan, loggerGet none ≠ .ok c) ∧
    (∀ a : AppConf, configGet none ≠ .ok a) := by
  refine ⟨rfl, rfl, ?_, ?_⟩
  · intro c h
    simp [loggerGet, expectGet] at h
  · intro a h
    simp [configGet, expectGet] at h

/-!
Claim C9.
-/

/-- Claim C9, counterexample: a second `AppConf::init` after a successful
first one does NOT always panic — when the reload fails (here: the file
has become unreadable), `init` terminates via `process::exit(1)` instead
of a panic; the installed singleton is still left unchanged. -/
theorem c9_second_init_exits_on_reload_failure :
    (appInit (.error (("boom").toList)) parseW none (some docPlain)).2.2 = .exited 1 ∧
    (appInit (.error (("boom").toList)) parseW none (some docPlain)).1 = some docPlain := by
  constructor
  · rfl
  · rfl

/-- Claim C9 (amended): a second `Logger::init` always panics with
"Logger already initialized" keeping the installed logger; a second
`AppConf::init` after a successful first call always fails fatally —
panicking on `CONFIG.set` when the reload succeeds, exiting with status 1
when it fails — and in every case the previously installed configuration
value is kept, never replaced. -/
theorem c9_double_init_fatal :
    (∀ w l2 : Chan, loggerInit (some w) l2 =
      (some w, .panicked (("Logger already initialized").toList))) ∧
    (∀ (readRes : Except Str Str) (parseFn : Str → Except Str AppConf)
      (envHome : Option Str) (c : AppConf),
      (appInit readRes parseFn envHome (some c)).1 = some c ∧
      ((appInit readRes parseFn envHome (some c)).2.2 = .panicked setFailMsg ∨
       (appInit readRes parseFn envHome (some c)).2.2 = .exited 1)) := by
  constructor
  · intro w l2
    rfl
  · intro r p e c
    cases hl : loadAppConf r p e with
    | mk res logs =>
      cases res with
      | ok conf => exact ⟨by simp [appInit, hl], Or.inl (by simp [appInit, hl])⟩
      | error err => exact ⟨by simp [appInit, hl], Or.inr (by simp [appInit, hl])⟩

/-!
Claim C10.
-/

/-- Claim C10 (confirmed): the four logging methods are total functions of
the channel state — they cannot panic and surface no error to the caller —
and their complete behavior is: on a connected channel the formatted record
is enqueued, on a disconnected channel (receiver gone, for example because
the background thread died failing to open the log file) the state is
unchanged and the message is silently discarded, exactly as the discarded
`send` result prescribes. -/
theorem c10_log_never_fails (c : Chan) (ts msg : Str) :
    infoM c ts msg = (if c.connected = true then
      ⟨c.queue ++ [formatLog ts (("INFO").toList) msg], c.connected⟩ else c) ∧
    warnM c ts msg = (if c.connected = true then
      ⟨c.queue ++ [formatLog ts (("WARN").toList) msg], c.connected⟩ else c) ∧
    errM c ts msg = (if c.connected = true then
      ⟨c.queue ++ [formatLog ts (("ERROR").toList) msg], c.connected⟩ else c) ∧
    debugM c ts msg = (if c.connected = true then
      ⟨c.queue ++ [formatLog ts (("DEBUG").toList) msg], c.connected⟩ else c) := by
  obtain ⟨q, conn⟩ := c
  cases conn <;>
    exact ⟨by simp [infoM, logM, sendMsg], by simp [warnM, logM, sendMsg],
      by simp [errM, logM, sendMsg], by simp [debugM, logM, sendMsg]⟩

end WgBridge
